import Mathlib

/-!
Shallow embedding of the FastAPI CRUD application (`src/main.py`, `src/audit.py`).

Timestamps (`datetime.utcnow()`) are modelled as abstract natural numbers
supplied as a `now` parameter to each operation that reads the clock.
Python floats (item prices) are modelled as exact rationals `ℚ`.
HTTP errors (`HTTPException`) are modelled by an explicit error type; a
handler that can raise is modelled as a function returning an `Except`
result together with the (possibly unchanged) global state, mirroring the
fact that in the Python code `raise` skips every mutation statement.
-/

set_option autoImplicit false

namespace FastApiApp

/-- `class Item(ItemBase)` from `src/main.py`: the stored item record. -/
structure Item where
  id : Nat
  name : String
  description : Option String
  price : ℚ
  quantity : Nat
  created_at : Nat
  updated_at : Nat
deriving Repr, DecidableEq

/-- `class ItemCreate(ItemBase)` from `src/main.py`: the create/update payload. -/
structure ItemCreate where
  name : String
  description : Option String
  price : ℚ
  quantity : Nat
deriving Repr, DecidableEq

/-- `class User(UserBase)` from `src/main.py`: the stored user record.
Note: it has no password field. -/
structure User where
  id : Nat
  username : String
  email : String
  full_name : Option String
  is_active : Bool
  created_at : Nat
deriving Repr, DecidableEq

/-- `class UserCreate(UserBase)` from `src/main.py`: the create payload,
which carries a password (min length 8, enforced by pydantic). -/
structure UserCreate where
  username : String
  email : String
  full_name : Option String
  password : String
deriving Repr, DecidableEq

/-- The module-level mutable globals of `src/main.py`:
`items_db`, `users_db`, `item_id_counter`, `user_id_counter`. -/
structure AppState where
  items_db : List Item
  users_db : List User
  item_id_counter : Nat
  user_id_counter : Nat
deriving Repr, DecidableEq

/-- The initial global state of `src/main.py`: empty lists, both counters 1. -/
def initState : AppState := ⟨[], [], 1, 1⟩

/-- Errors raised via `HTTPException` in the handlers. -/
inductive ApiError where
  | notFound (entity : String)
  | duplicateField (field : String)
deriving Repr, DecidableEq

-- ============================
-- ITEMS CRUD
-- ============================

/-- `create_item` (`src/main.py` lines 100-117): builds the new `Item` from the
payload with `id = item_id_counter` and both timestamps `now`, appends it to
`items_db`, then increments the counter. Returns the new item. -/
def create_item (s : AppState) (item : ItemCreate) (now : Nat) : Item × AppState :=
  let new_item : Item :=
    { id := s.item_id_counter
      name := item.name
      description := item.description
      price := item.price
      quantity := item.quantity
      created_at := now
      updated_at := now }
  (new_item,
   { s with
      items_db := s.items_db ++ [new_item]
      item_id_counter := s.item_id_counter + 1 })

/-- Python list slice `l[a : b]` for `0 ≤ a`, `0 ≤ b`: elements at indices
`a ≤ i < b`. -/
def pySlice {α : Type} (l : List α) (a b : Nat) : List α :=
  (l.take b).drop a

/-- `get_items` (`src/main.py` lines 121-122): `items_db[skip : skip + limit]`. -/
def get_items (s : AppState) (skip limit : Nat) : List Item :=
  pySlice s.items_db skip (skip + limit)

/-- `get_item` (`src/main.py` lines 126-130): linear scan for the first item
with the given id; 404 if none. -/
def get_item (s : AppState) (item_id : Nat) : Except ApiError Item :=
  match s.items_db.find? (fun item => item.id == item_id) with
  | some item => .ok item
  | none => .error (.notFound "Item")

/-- The replacement record built inside `update_item`: same `id` and
`created_at` as the existing record, payload fields for the rest,
`updated_at = now`. -/
def mkUpdatedItem (item : Item) (item_update : ItemCreate) (now : Nat) : Item :=
  { id := item.id
    name := item_update.name
    description := item_update.description
    price := item_update.price
    quantity := item_update.quantity
    created_at := item.created_at
    updated_at := now }

/-- The `for index, item in enumerate(items_db)` loop of `update_item`:
replace the first record whose id matches, keeping its position. -/
def replaceFirst (l : List Item) (item_id : Nat) (item_update : ItemCreate)
    (now : Nat) : Option (Item × List Item) :=
  match l with
  | [] => none
  | item :: rest =>
    if item.id = item_id then
      let updated := mkUpdatedItem item item_update now
      some (updated, updated :: rest)
    else
      match replaceFirst rest item_id item_update now with
      | none => none
      | some (u, rest') => some (u, item :: rest')

/-- `update_item` (`src/main.py` lines 134-149): replace the first matching
record in place; 404 (state untouched) if no record matches. -/
def update_item (s : AppState) (item_id : Nat) (item_update : ItemCreate)
    (now : Nat) : Except ApiError Item × AppState :=
  match replaceFirst s.items_db item_id item_update now with
  | some (u, l') => (.ok u, { s with items_db := l' })
  | none => (.error (.notFound "Item"), s)

/-- The `for index, item in enumerate(items_db)` loop of `delete_item`:
remove the first record whose id matches (`items_db.pop(index)`). -/
def removeFirst (l : List Item) (item_id : Nat) : Option (List Item) :=
  match l with
  | [] => none
  | item :: rest =>
    if item.id = item_id then
      some rest
    else
      match removeFirst rest item_id with
      | none => none
      | some rest' => some (item :: rest')

/-- `delete_item` (`src/main.py` lines 153-159): remove the first matching
record; 404 (state untouched) if no record matches. -/
def delete_item (s : AppState) (item_id : Nat) : Except ApiError Unit × AppState :=
  match removeFirst s.items_db item_id with
  | some l' => (.ok (), { s with items_db := l' })
  | none => (.error (.notFound "Item"), s)

-- ============================
-- USERS CRUD
-- ============================

/-- Python's `str.lower()`: lowercase every character (adequate for the ASCII
strings this application compares). Written over the character list so that it
reduces in the kernel. -/
def strLower (s : String) : String := ⟨s.data.map Char.toLower⟩

/-- The duplicate-check loop of `create_user` (`src/main.py` lines 171-175):
scan existing users in store order; for each, raise on a case-insensitive
username match first, then on an email match. Returns the field name of the
first conflict found by this scan, if any. -/
def findDup (users : List User) (user : UserCreate) : Option String :=
  match users with
  | [] => none
  | existing_user :: rest =>
    if strLower existing_user.username = strLower user.username then some "username"
    else if strLower existing_user.email = strLower user.email then some "email"
    else findDup rest user

/-- `create_user` (`src/main.py` lines 167-188): duplicate check over
`users_db`, then build the new `User` with `id = user_id_counter`,
`is_active = True`, `created_at = now` (the password is not stored),
append it and increment the counter. -/
def create_user (s : AppState) (user : UserCreate) (now : Nat) :
    Except ApiError User × AppState :=
  match findDup s.users_db user with
  | some f => (.error (.duplicateField f), s)
  | none =>
    let new_user : User :=
      { id := s.user_id_counter
        username := user.username
        email := user.email
        full_name := user.full_name
        is_active := true
        created_at := now }
    (.ok new_user,
     { s with
        users_db := s.users_db ++ [new_user]
        user_id_counter := s.user_id_counter + 1 })

/-- `get_users` (`src/main.py` lines 192-193): `users_db[skip : skip + limit]`. -/
def get_users (s : AppState) (skip limit : Nat) : List User :=
  pySlice s.users_db skip (skip + limit)

-- ============================
-- Sequences of item creates (for C1)
-- ============================

/-- Run a sequence of `create_item` requests, collecting the returned items. -/
def createItems (s : AppState) : List (ItemCreate × Nat) → List Item × AppState
  | [] => ([], s)
  | (item, now) :: rest =>
    let (r, s') := create_item s item now
    let (rs, sf) := createItems s' rest
    (r :: rs, sf)

theorem createItems_spec (reqs : List (ItemCreate × Nat)) (s : AppState) :
    (createItems s reqs).1.map Item.id =
      List.range' s.item_id_counter reqs.length ∧
    (createItems s reqs).2.items_db = s.items_db ++ (createItems s reqs).1 ∧
    (createItems s reqs).2.item_id_counter = s.item_id_counter + reqs.length := by
  induction reqs generalizing s with
  | nil => simp [createItems]
  | cons req rest ih =>
    obtain ⟨req_item, req_now⟩ := req
    simp only [createItems, create_item, List.length_cons, List.map_cons,
      List.range'_succ]
    obtain ⟨h1, h2, h3⟩ := ih
      { s with
        items_db := s.items_db ++
          [{ id := s.item_id_counter, name := req_item.name,
             description := req_item.description, price := req_item.price,
             quantity := req_item.quantity, created_at := req_now,
             updated_at := req_now }]
        item_id_counter := s.item_id_counter + 1 }
    refine ⟨?_, ?_, ?_⟩
    · simpa using h1
    · simpa [List.append_assoc] using h2
    · simpa [Nat.add_assoc, Nat.add_comm 1 rest.length] using h3

/-- C1: starting from the empty store with the allocator at 1, a sequence of
`N` item creates returns items with ids exactly `1..N` in creation order
(both as returned and as stored), and each single create returns the current
counter value and bumps the counter by exactly 1. -/
theorem item_ids_are_one_to_N (reqs : List (ItemCreate × Nat)) :
    (createItems initState reqs).1.map Item.id = List.range' 1 reqs.length ∧
    (createItems initState reqs).2.items_db.map Item.id =
      List.range' 1 reqs.length ∧
    (∀ (s : AppState) (item : ItemCreate) (now : Nat),
      (create_item s item now).1.id = s.item_id_counter ∧
      (create_item s item now).2.item_id_counter = s.item_id_counter + 1) := by
  obtain ⟨h1, h2, _⟩ := createItems_spec reqs initState
  refine ⟨h1, ?_, ?_⟩
  · rw [h2]
    simpa [initState] using h1
  · intro s item now
    exact ⟨rfl, rfl⟩

-- ============================
-- Interleavings of item creates and deletes (for C2)
-- ============================

/-- An item-store operation: a create request or a delete by id. -/
inductive ItemOp where
  | create (item : ItemCreate) (now : Nat)
  | del (item_id : Nat)
deriving Repr, DecidableEq

/-- Run a sequence of item operations, collecting the ids returned by the
creates, in allocation order. -/
def runItemOps (s : AppState) : List ItemOp → AppState × List Nat
  | [] => (s, [])
  | .create item now :: rest =>
    let (r, s') := create_item s item now
    let (sf, ids) := runItemOps s' rest
    (sf, r.id :: ids)
  | .del item_id :: rest =>
    let (_, s') := delete_item s item_id
    runItemOps s' rest

/-- Number of create operations in a sequence. -/
def countCreates : List ItemOp → Nat
  | [] => 0
  | .create _ _ :: rest => countCreates rest + 1
  | .del _ :: rest => countCreates rest

theorem delete_item_counter (s : AppState) (item_id : Nat) :
    (delete_item s item_id).2.item_id_counter = s.item_id_counter := by
  unfold delete_item
  cases removeFirst s.items_db item_id <;> rfl

theorem runItemOps_spec (ops : List ItemOp) (s : AppState) :
    (runItemOps s ops).2 = List.range' s.item_id_counter (countCreates ops) ∧
    (runItemOps s ops).1.item_id_counter = s.item_id_counter + countCreates ops := by
  induction ops generalizing s with
  | nil => simp [runItemOps, countCreates]
  | cons op rest ih =>
    cases op with
    | create item now =>
      obtain ⟨h1, h2⟩ := ih (create_item s item now).2
      simp only [runItemOps, countCreates, create_item] at *
      refine ⟨?_, ?_⟩
      · rw [List.range'_succ]
        simpa using h1
      · simpa [Nat.add_assoc, Nat.add_comm 1 (countCreates rest)] using h2
    | del item_id =>
      obtain ⟨h1, h2⟩ := ih (delete_item s item_id).2
      simp only [runItemOps, countCreates]
      rw [delete_item_counter] at h1 h2
      exact ⟨h1, h2⟩

theorem foldr_max_range' (start n : Nat) :
    (List.range' start (n + 1)).foldr Nat.max 0 = start + n := by
  induction n generalizing start with
  | zero => simp [List.range'_one]
  | succ k ih =>
    rw [List.range'_succ, List.foldr_cons, ih (start + 1)]
    have hmax : start.max (start + 1 + k) = start + 1 + k :=
      Nat.max_eq_right (by omega)
    omega

/-- C2: for every interleaving of item creates and deletes starting from the
initial state, the allocated ids are exactly `1..N` (`N` = number of creates)
in allocation order — hence unique, strictly increasing, and a deleted id is
never reassigned: every allocated id is strictly below the final counter, and
the counter handed to the next create is the maximum id ever allocated
plus 1. -/
theorem item_ids_never_reused (ops : List ItemOp) :
    (runItemOps initState ops).2 = List.range' 1 (countCreates ops) ∧
    (runItemOps initState ops).2.Chain' (· < ·) ∧
    (runItemOps initState ops).2.Nodup ∧
    (∀ k ∈ (runItemOps initState ops).2,
      k < (runItemOps initState ops).1.item_id_counter) ∧
    (runItemOps initState ops).1.item_id_counter =
      (runItemOps initState ops).2.foldr Nat.max 0 + 1 := by
  obtain ⟨h1, h2⟩ := runItemOps_spec ops initState
  have h1' : (runItemOps initState ops).2 = List.range' 1 (countCreates ops) := h1
  have h2' : (runItemOps initState ops).1.item_id_counter =
      1 + countCreates ops := h2
  refine ⟨h1', ?_, ?_, ?_, ?_⟩
  · rw [h1']
    exact (List.pairwise_lt_range' 1 (countCreates ops)).chain'
  · rw [h1']
    exact List.nodup_range' 1 (countCreates ops)
  · intro k hk
    rw [h1'] at hk
    rw [h2']
    have := List.mem_range'.mp hk
    omega
  · rw [h1', h2']
    cases h : countCreates ops with
    | zero => simp
    | succ m =>
      rw [foldr_max_range' 1 m]
      omega

-- ============================
-- Duplicate-field reporting order (for C3)
-- ============================

/-- An existing user conflicts with the candidate when either unique field
matches case-insensitively. -/
def conflictsWith (user : UserCreate) (e : User) : Bool :=
  strLower e.username = strLower user.username ∨
    strLower e.email = strLower user.email

theorem findDup_eq_findIdx (users : List User) (user : UserCreate) :
    findDup users user =
      match users[users.findIdx (conflictsWith user)]? with
      | some e =>
        some (if strLower e.username = strLower user.username
              then "username" else "email")
      | none => none := by
  induction users with
  | nil => simp [findDup]
  | cons e rest ih =>
    by_cases hu : strLower e.username = strLower user.username
    · simp [findDup, hu, List.findIdx_cons, conflictsWith]
    · by_cases he : strLower e.email = strLower user.email
      · simp [findDup, hu, he, List.findIdx_cons, conflictsWith]
      · have hc : conflictsWith user e = false := by
          simp [conflictsWith, hu, he]
        simp only [findDup, if_neg hu, if_neg he, List.findIdx_cons, hc,
          cond_false]
        rw [ih]
        simp

/-- The store used to refute the claimed field-priority: the first stored user
conflicts with the candidate only on email, the second only on username. -/
def ceState : AppState :=
  ⟨[], [⟨1, "bob", "alice@example.com", none, true, 0⟩,
        ⟨2, "alice", "bob@example.com", none, true, 0⟩], 1, 3⟩

/-- A candidate whose username matches the second stored user and whose email
matches the first stored user (both case-insensitively). -/
def ceCand : UserCreate := ⟨"Alice", "Alice@Example.com", none, "password1"⟩

/-- C3 counterexample: an existing record matches the candidate's username,
yet the code reports `DuplicateField "email"`, because the duplicate check
scans record-by-record (username before email within each record), not field
by field across the whole store. -/
theorem create_user_field_order_counterexample :
    (∃ e ∈ ceState.users_db, strLower e.username = strLower ceCand.username) ∧
    (create_user ceState ceCand 7).1 =
      Except.error (ApiError.duplicateField "email") := by
  constructor
  · exact ⟨⟨2, "alice", "bob@example.com", none, true, 0⟩,
      by simp [ceState], by decide⟩
  · rfl

/-- C3 (amended): when the candidate conflicts case-insensitively with at
least one stored record, user creation fails with a `DuplicateField` error;
the reported field is determined by the first conflicting record in store
order — `"username"` if that record's username matches, otherwise `"email"`.
The concrete scenario stands: creating username `"Alice"` when a user
`"alice"` exists fails with `DuplicateField "username"`. -/
theorem create_user_reports_first_conflict (s : AppState) (user : UserCreate)
    (now : Nat) (h : ∃ e ∈ s.users_db, conflictsWith user e = true) :
    (∃ e, s.users_db[s.users_db.findIdx (conflictsWith user)]? = some e ∧
      (create_user s user now).1 =
        Except.error (ApiError.duplicateField
          (if strLower e.username = strLower user.username
           then "username" else "email"))) ∧
    (create_user ⟨[], [⟨1, "alice", "a@example.com", none, true, 0⟩], 1, 2⟩
        ⟨"Alice", "b@example.com", none, "password1"⟩ now).1 =
      Except.error (ApiError.duplicateField "username") := by
  constructor
  · have hlt : s.users_db.findIdx (conflictsWith user) < s.users_db.length :=
      List.findIdx_lt_length_of_exists h
    obtain ⟨e, he⟩ : ∃ e,
        s.users_db[s.users_db.findIdx (conflictsWith user)]? = some e :=
      ⟨s.users_db[s.users_db.findIdx (conflictsWith user)],
        List.getElem?_eq_getElem hlt⟩
    refine ⟨e, he, ?_⟩
    unfold create_user
    rw [findDup_eq_findIdx, he]
  · rfl

/-- The single-user store of the `"Alice"` / `"alice"` scenario. -/
def aliceStore : AppState :=
  ⟨[], [⟨1, "alice", "a@example.com", none, true, 0⟩], 1, 2⟩

/-- The candidate of the `"Alice"` / `"alice"` scenario. -/
def aliceCand : UserCreate := ⟨"Alice", "b@example.com", none, "password1"⟩

theorem create_user_reports_first_conflict_witness :
    (∃ e, aliceStore.users_db[aliceStore.users_db.findIdx
        (conflictsWith aliceCand)]? = some e ∧
      (create_user aliceStore aliceCand 3).1 =
        Except.error (ApiError.duplicateField
          (if strLower e.username = strLower aliceCand.username
           then "username" else "email"))) ∧
    (create_user ⟨[], [⟨1, "alice", "a@example.com", none, true, 0⟩], 1, 2⟩
        ⟨"Alice", "b@example.com", none, "password1"⟩ 3).1 =
      Except.error (ApiError.duplicateField "username") :=
  create_user_reports_first_conflict aliceStore aliceCand 3 (by decide)

-- ============================
-- Update frame conditions (for C4)
-- ============================

theorem replaceFirst_spec (l : List Item) (item_id : Nat) (upd : ItemCreate)
    (now : Nat) (r : Item) (l' : List Item)
    (h : replaceFirst l item_id upd now = some (r, l')) :
    ∃ i old, l[i]? = some old ∧ old.id = item_id ∧
      r = mkUpdatedItem old upd now ∧ l' = l.set i r := by
  induction l generalizing l' with
  | nil => simp [replaceFirst] at h
  | cons item rest ih =>
    by_cases hid : item.id = item_id
    · refine ⟨0, item, by simp, hid, ?_, ?_⟩ <;>
        simp only [replaceFirst, if_pos hid, Option.some.injEq, Prod.mk.injEq] at h
      · exact h.1.symm
      · simp [← h.2, ← h.1]
    · simp only [replaceFirst, if_neg hid] at h
      cases hr : replaceFirst rest item_id upd now with
      | none => rw [hr] at h; exact absurd h (by simp)
      | some p =>
        obtain ⟨u, rest'⟩ := p
        rw [hr] at h
        simp only [Option.some.injEq, Prod.mk.injEq] at h
        obtain ⟨hu, hrest⟩ := h
        obtain ⟨i, old, h1, h2, h3, h4⟩ := ih rest' (by rw [hr, hu])
        exact ⟨i + 1, old, by simpa using h1, h2, h3,
          by simp [← hrest, h4]⟩

/-- C4: a successful item update replaces the first record with the target id
in place: the replacement keeps the old `id` and `created_at`, takes the
payload's `name`, `description`, `price` and `quantity`, gets
`updated_at = now` (hence `updated_at` does not decrease when the clock does
not run backwards), and the rest of the state — all other records and their
positions, the user store, and both counters — is untouched. -/
theorem update_item_frame (s : AppState) (item_id : Nat) (upd : ItemCreate)
    (now : Nat) (r : Item) (s' : AppState)
    (h : update_item s item_id upd now = (.ok r, s')) :
    ∃ i old, s.items_db[i]? = some old ∧ old.id = item_id ∧
      r.id = old.id ∧ r.created_at = old.created_at ∧
      r.name = upd.name ∧ r.description = upd.description ∧
      r.price = upd.price ∧ r.quantity = upd.quantity ∧
      r.updated_at = now ∧
      (old.updated_at ≤ now → old.updated_at ≤ r.updated_at) ∧
      s'.items_db = s.items_db.set i r ∧
      s'.users_db = s.users_db ∧
      s'.item_id_counter = s.item_id_counter ∧
      s'.user_id_counter = s.user_id_counter := by
  unfold update_item at h
  cases hr : replaceFirst s.items_db item_id upd now with
  | none => rw [hr] at h; exact absurd h (by simp)
  | some p =>
    obtain ⟨u, l'⟩ := p
    rw [hr] at h
    simp only [Prod.mk.injEq, Except.ok.injEq] at h
    obtain ⟨hu, hs⟩ := h
    obtain ⟨i, old, h1, h2, h3, h4⟩ :=
      replaceFirst_spec s.items_db item_id upd now u l' hr
    subst hu
    refine ⟨i, old, h1, h2, ?_, ?_, ?_, ?_, ?_, ?_, ?_, ?_, ?_, ?_⟩ <;>
      simp [← hs, h3, h4, mkUpdatedItem]

/-- A one-item store for exercising a successful update. -/
def w4State : AppState := ⟨[⟨1, "Widget", none, 5, 2, 0, 0⟩], [], 2, 1⟩

/-- The update payload of the concrete successful update. -/
def w4Upd : ItemCreate := ⟨"Gadget", some "desc", 7, 4⟩

/-- The record produced by updating item 1 of `w4State` with `w4Upd` at
time 9. -/
def w4Result : Item := ⟨1, "Gadget", some "desc", 7, 4, 0, 9⟩

theorem update_item_frame_witness :
    ∃ i old, w4State.items_db[i]? = some old ∧ old.id = 1 ∧
      w4Result.id = old.id ∧ w4Result.created_at = old.created_at ∧
      w4Result.name = w4Upd.name ∧ w4Result.description = w4Upd.description ∧
      w4Result.price = w4Upd.price ∧ w4Result.quantity = w4Upd.quantity ∧
      w4Result.updated_at = 9 ∧
      (old.updated_at ≤ 9 → old.updated_at ≤ w4Result.updated_at) ∧
      (⟨[w4Result], [], 2, 1⟩ : AppState).items_db =
        w4State.items_db.set i w4Result ∧
      (⟨[w4Result], [], 2, 1⟩ : AppState).users_db = w4State.users_db ∧
      (⟨[w4Result], [], 2, 1⟩ : AppState).item_id_counter =
        w4State.item_id_counter ∧
      (⟨[w4Result], [], 2, 1⟩ : AppState).user_id_counter =
        w4State.user_id_counter :=
  update_item_frame w4State 1 w4Upd 9 w4Result ⟨[w4Result], [], 2, 1⟩ (by rfl)

-- ============================
-- Error atomicity (for C5)
-- ============================

/-- C5: every operation that fails leaves the global state exactly as it was:
a failed update, delete, or user create returns the state unchanged (and a
failed `get_item` reads no state at all, being a pure query). In the Python
code each `raise` occurs before any mutation statement runs. -/
theorem errors_leave_state_unchanged (s : AppState) :
    (∀ (item_id : Nat) (upd : ItemCreate) (now : Nat) (e : ApiError)
        (s' : AppState),
      update_item s item_id upd now = (.error e, s') → s' = s) ∧
    (∀ (item_id : Nat) (e : ApiError) (s' : AppState),
      delete_item s item_id = (.error e, s') → s' = s) ∧
    (∀ (user : UserCreate) (now : Nat) (e : ApiError) (s' : AppState),
      create_user s user now = (.error e, s') → s' = s) := by
  refine ⟨?_, ?_, ?_⟩
  · intro item_id upd now e s' h
    unfold update_item at h
    cases hr : replaceFirst s.items_db item_id upd now with
    | none => rw [hr] at h; exact (Prod.mk.injEq _ _ _ _ ▸ h).2.symm ▸ rfl
    | some p => rw [hr] at h; exact absurd (Prod.mk.injEq _ _ _ _ ▸ h).1 (by simp)
  · intro item_id e s' h
    unfold delete_item at h
    cases hr : removeFirst s.items_db item_id with
    | none => rw [hr] at h; exact (Prod.mk.injEq _ _ _ _ ▸ h).2.symm ▸ rfl
    | some l' => rw [hr] at h; exact absurd (Prod.mk.injEq _ _ _ _ ▸ h).1 (by simp)
  · intro user now e s' h
    unfold create_user at h
    cases hr : findDup s.users_db user with
    | none => rw [hr] at h; exact absurd (Prod.mk.injEq _ _ _ _ ▸ h).1 (by simp)
    | some f => rw [hr] at h; exact (Prod.mk.injEq _ _ _ _ ▸ h).2.symm ▸ rfl

theorem errors_leave_state_unchanged_witness :
    (delete_item initState 5).2 = initState ∧
    (create_user aliceStore ⟨"ALICE", "c@example.com", none, "password1"⟩ 4).2 =
      aliceStore :=
  ⟨(errors_leave_state_unchanged initState).2.1 5 (ApiError.notFound "Item")
      (delete_item initState 5).2 (by rfl),
   (errors_leave_state_unchanged aliceStore).2.2
      ⟨"ALICE", "c@example.com", none, "password1"⟩ 4
      (ApiError.duplicateField "username")
      (create_user aliceStore ⟨"ALICE", "c@example.com", none, "password1"⟩ 4).2
      (by rfl)⟩

-- ============================
-- List slicing (for C6)
-- ============================

/-- C6: listing with `skip`/`limit` (both natural numbers) returns exactly
the records at positions `skip` through `skip + limit - 1` of the store in
store order, truncated at the end — a total function, so out-of-range values
yield an empty or shortened sequence rather than an error; on any 3-record
store, `skip = 2`, `limit = 10` returns exactly the record at index 2. -/
theorem list_slices (s : AppState) (skip limit : Nat) :
    get_items s skip limit = (s.items_db.drop skip).take limit ∧
    get_users s skip limit = (s.users_db.drop skip).take limit ∧
    (∀ i, i < limit → (get_items s skip limit)[i]? = s.items_db[skip + i]?) ∧
    (∀ (a b c : Item) (us : List User) (ic uc : Nat),
      get_items ⟨[a, b, c], us, ic, uc⟩ 2 10 = [c]) ∧
    (∀ (a b c : User) (its : List Item) (ic uc : Nat),
      get_users ⟨its, [a, b, c], ic, uc⟩ 2 10 = [c]) := by
  have hslice : ∀ (l : List Item),
      pySlice l skip (skip + limit) = (l.drop skip).take limit := by
    intro l
    unfold pySlice
    rw [List.drop_take]
    simp
  refine ⟨hslice s.items_db, ?_, ?_, ?_, ?_⟩
  · unfold get_users pySlice
    rw [List.drop_take]
    simp
  · intro i hi
    rw [show get_items s skip limit = (s.items_db.drop skip).take limit from
      hslice s.items_db]
    rw [List.getElem?_take_of_lt hi, List.getElem?_drop]
  · intro a b c us ic uc
    simp [get_items, pySlice]
  · intro a b c its ic uc
    simp [get_users, pySlice]

theorem list_slices_witness :
    (get_items w4State 0 10)[0]? = w4State.items_db[0 + 0]? :=
  (list_slices w4State 0 10).2.2.1 0 (by decide)

-- ============================
-- Audit module (`src/audit.py`) and allocator non-reset (for C7)
-- ============================

/-- `class AuditLog(BaseModel)` from `src/audit.py`. -/
structure AuditLog where
  id : Nat
  action : String
  entity : String
  timestamp : Nat
deriving Repr, DecidableEq

/-- The module-level globals of `src/audit.py`: `audit_logs` and
`audit_id_counter`. -/
structure AuditState where
  audit_logs : List AuditLog
  audit_id_counter : Nat
deriving Repr, DecidableEq

/-- The initial state of `src/audit.py`: empty log, counter 1. -/
def auditInit : AuditState := ⟨[], 1⟩

/-- `create_audit_log` (`src/audit.py` lines 35-48): build the entry with
`id = audit_id_counter` and `timestamp = now`, append it, increment the
counter, and return it. -/
def create_audit_log (s : AuditState) (action entity : String) (now : Nat) :
    AuditLog × AuditState :=
  let new_log : AuditLog :=
    { id := s.audit_id_counter, action := action, entity := entity,
      timestamp := now }
  (new_log, ⟨s.audit_logs ++ [new_log], s.audit_id_counter + 1⟩)

/-- `get_audit_logs` (`src/audit.py` lines 55-57): return all entries. -/
def get_audit_logs (s : AuditState) : List AuditLog := s.audit_logs

/-- `clear_logs` (`src/audit.py` lines 60-65): `audit_logs.clear()` and
`audit_id_counter = 1`. -/
def clear_logs (_ : AuditState) : AuditState := ⟨[], 1⟩

/-- Any state-mutating request of `src/main.py`. -/
inductive Op where
  | createItem (item : ItemCreate) (now : Nat)
  | updateItem (item_id : Nat) (item : ItemCreate) (now : Nat)
  | deleteItem (item_id : Nat)
  | createUser (user : UserCreate) (now : Nat)
deriving Repr, DecidableEq

/-- The state reached after one request (ignoring the response). -/
def runOp (s : AppState) : Op → AppState
  | .createItem item now => (create_item s item now).2
  | .updateItem item_id item now => (update_item s item_id item now).2
  | .deleteItem item_id => (delete_item s item_id).2
  | .createUser user now => (create_user s user now).2

/-- The state reached after a sequence of requests. -/
def runOps : AppState → List Op → AppState
  | s, [] => s
  | s, op :: rest => runOps (runOp s op) rest

theorem runOp_counters_mono (s : AppState) (op : Op) :
    s.item_id_counter ≤ (runOp s op).item_id_counter ∧
    s.user_id_counter ≤ (runOp s op).user_id_counter := by
  cases op with
  | createItem item now => simp [runOp, create_item]
  | updateItem item_id item now =>
    simp only [runOp, update_item]
    split <;> simp
  | deleteItem item_id =>
    simp only [runOp, delete_item]
    split <;> simp
  | createUser user now =>
    simp only [runOp, create_user]
    split <;> simp

/-- C7: clearing the audit log removes every entry AND resets the audit
allocator to 1, so the next recorded entry gets id 1 — whereas no Item/User
request ever decreases (in particular never resets) the Item or User
allocator. -/
theorem clear_logs_resets_allocator (s : AuditState) (action entity : String)
    (now : Nat) :
    (clear_logs s).audit_logs = [] ∧
    (clear_logs s).audit_id_counter = 1 ∧
    (create_audit_log (clear_logs s) action entity now).1.id = 1 ∧
    get_audit_logs (create_audit_log (clear_logs s) action entity now).2 =
      [⟨1, action, entity, now⟩] ∧
    (∀ (st : AppState) (op : Op),
      st.item_id_counter ≤ (runOp st op).item_id_counter ∧
      st.user_id_counter ≤ (runOp st op).user_id_counter) :=
  ⟨rfl, rfl, rfl, rfl, runOp_counters_mono⟩

-- ============================
-- Statistics (`get_statistics`, for C8)
-- ============================

/-- Python's `round(x, 2)`: the multiple of `1/100` nearest to `x`, ties to
the even multiple (banker's rounding). Numeric values are modelled as exact
rationals. -/
def pyRound2 (q : ℚ) : ℚ :=
  let x := q * 100
  let f : ℤ := ⌊x⌋
  let frac := x - (f : ℚ)
  let n : ℤ :=
    if frac < 1 / 2 then f
    else if 1 / 2 < frac then f + 1
    else if f % 2 = 0 then f else f + 1
  (n : ℚ) / 100

/-- The response of the `/stats` endpoint. -/
structure Stats where
  total_items : Nat
  total_users : Nat
  total_inventory_value : ℚ
  active_users : Nat
deriving Repr, DecidableEq

/-- `get_statistics` (`src/main.py` lines 219-236): counts, the rounded
`sum(item.price * item.quantity for item in items_db)`, and
`sum(1 for user in users_db if user.is_active)`. A pure read of the state. -/
def get_statistics (s : AppState) : Stats :=
  { total_items := s.items_db.length
    total_users := s.users_db.length
    total_inventory_value :=
      pyRound2 (s.items_db.foldl
        (fun acc item => acc + item.price * (item.quantity : ℚ)) 0)
    active_users :=
      s.users_db.foldl (fun acc u => if u.is_active then acc + 1 else acc) 0 }

/-- The exact (unrounded) inventory value of a store. -/
def invTotal (s : AppState) : ℚ :=
  (s.items_db.map (fun item => item.price * (item.quantity : ℚ))).sum

theorem foldl_add_eq_sum (l : List Item) (a : ℚ) :
    l.foldl (fun acc item => acc + item.price * (item.quantity : ℚ)) a =
      a + (l.map (fun item => item.price * (item.quantity : ℚ))).sum := by
  induction l generalizing a with
  | nil => simp
  | cons x xs ih => simp [ih, add_assoc]

theorem foldl_count_eq_filter (l : List User) (a : Nat) :
    l.foldl (fun acc u => if u.is_active then acc + 1 else acc) a =
      a + (l.filter (fun u => u.is_active)).length := by
  induction l generalizing a with
  | nil => simp
  | cons x xs ih =>
    by_cases h : x.is_active <;> simp [h, ih, Nat.add_assoc, Nat.add_comm 1]

theorem pyRound2_spec (q : ℚ) :
    ∃ n : ℤ, pyRound2 q = (n : ℚ) / 100 ∧
      |q * 100 - (n : ℚ)| ≤ 1 / 2 ∧
      (|q * 100 - (n : ℚ)| = 1 / 2 → n % 2 = 0) := by
  set x : ℚ := q * 100 with hx
  set f : ℤ := ⌊x⌋ with hf
  have hfl : (f : ℚ) ≤ x := Int.floor_le x
  have hfu : x < (f : ℚ) + 1 := Int.lt_floor_add_one x
  by_cases h1 : x - (f : ℚ) < 1 / 2
  · refine ⟨f, ?_, ?_, ?_⟩
    · simp only [pyRound2, ← hx, ← hf, if_pos h1]
    · rw [abs_of_nonneg (by linarith)]
      linarith
    · intro habs
      rw [abs_of_nonneg (by linarith)] at habs
      linarith
  · by_cases h2 : 1 / 2 < x - (f : ℚ)
    · refine ⟨f + 1, ?_, ?_, ?_⟩
      · simp only [pyRound2, ← hx, ← hf, if_neg h1, if_pos h2]
      · rw [abs_of_nonpos (by push_cast; linarith)]
        push_cast
        linarith
      · intro habs
        rw [abs_of_nonpos (by push_cast; linarith)] at habs
        push_cast at habs
        linarith
    · have heq : x - (f : ℚ) = 1 / 2 := le_antisymm (not_lt.mp h2) (not_lt.mp h1)
      by_cases h3 : f % 2 = 0
      · refine ⟨f, ?_, ?_, ?_⟩
        · simp only [pyRound2, ← hx, ← hf, if_neg h1, if_neg h2, if_pos h3]
        · rw [abs_of_nonneg (by linarith)]
          linarith
        · intro _
          exact h3
      · refine ⟨f + 1, ?_, ?_, ?_⟩
        · simp only [pyRound2, ← hx, ← hf, if_neg h1, if_neg h2, if_neg h3]
        · rw [abs_of_nonpos (by push_cast; linarith)]
          push_cast
          linarith
        · intro _
          omega

/-- C8: `get_statistics` reports the item count, the user count, the number
of users with `is_active = true`, and the total inventory value
`Σ price × quantity` rounded to 2 decimal places with round-half-to-even:
the reported value is a multiple of `1/100` within `1/200` of the exact sum
(expressed here at scale 100: within `1/2` of `100 ×` the sum), with ties
resolved to an even numerator. It reads the state without mutating it
(it is a pure function of the state). Concretely, after creating a single
item with price `9.99` and quantity `3` the reported value is `29.97`. -/
theorem get_statistics_spec (s : AppState) :
    (get_statistics s).total_items = s.items_db.length ∧
    (get_statistics s).total_users = s.users_db.length ∧
    (get_statistics s).active_users =
      (s.users_db.filter (fun u => u.is_active)).length ∧
    (∃ n : ℤ, (get_statistics s).total_inventory_value = (n : ℚ) / 100 ∧
      |invTotal s * 100 - (n : ℚ)| ≤ 1 / 2 ∧
      (|invTotal s * 100 - (n : ℚ)| = 1 / 2 → n % 2 = 0)) ∧
    Stats.total_inventory_value
      (get_statistics
        (create_item initState ⟨"Widget", none, 999 / 100, 3⟩ 0).2) =
      2997 / 100 := by
  refine ⟨rfl, rfl, ?_, ?_, ?_⟩
  · simpa using foldl_count_eq_filter s.users_db 0
  · have hv : (get_statistics s).total_inventory_value = pyRound2 (invTotal s) := by
      simp only [get_statistics, invTotal]
      rw [foldl_add_eq_sum]
      simp
    rw [hv]
    exact pyRound2_spec (invTotal s)
  · norm_num [get_statistics, create_item, initState, pyRound2]

theorem get_statistics_spec_witness :
    (get_statistics w4State).total_items = w4State.items_db.length ∧
    (get_statistics w4State).total_users = w4State.users_db.length ∧
    (get_statistics w4State).active_users =
      (w4State.users_db.filter (fun u => u.is_active)).length ∧
    (∃ n : ℤ, (get_statistics w4State).total_inventory_value = (n : ℚ) / 100 ∧
      |invTotal w4State * 100 - (n : ℚ)| ≤ 1 / 2 ∧
      (|invTotal w4State * 100 - (n : ℚ)| = 1 / 2 → n % 2 = 0)) ∧
    Stats.total_inventory_value
      (get_statistics
        (create_item initState ⟨"Widget", none, 999 / 100, 3⟩ 0).2) =
      2997 / 100 :=
  get_statistics_spec w4State

-- ============================
-- Users are always active (for C9)
-- ============================

theorem runOp_users_db (s : AppState) (op : Op) :
    (runOp s op).users_db = s.users_db ∨
      ∃ nu, (runOp s op).users_db = s.users_db ++ [nu] ∧
        nu.is_active = true := by
  cases op with
  | createItem item now => exact .inl rfl
  | updateItem item_id item now =>
    simp only [runOp, update_item]
    split <;> exact .inl rfl
  | deleteItem item_id =>
    simp only [runOp, delete_item]
    split <;> exact .inl rfl
  | createUser user now =>
    simp only [runOp, create_user]
    split
    · exact .inl rfl
    · exact .inr ⟨_, rfl, rfl⟩

theorem runOps_users_active (ops : List Op) (s : AppState)
    (h : ∀ u ∈ s.users_db, u.is_active = true) :
    ∀ u ∈ (runOps s ops).users_db, u.is_active = true := by
  induction ops generalizing s with
  | nil => exact h
  | cons op rest ih =>
    refine ih (runOp s op) ?_
    rcases runOp_users_db s op with heq | ⟨nu, heq, hnu⟩
    · rw [heq]; exact h
    · rw [heq]
      intro u hu
      rcases List.mem_append.mp hu with hu | hu
      · exact h u hu
      · rw [List.mem_singleton.mp hu]; exact hnu

/-- C9: every user record ever stored has `is_active = true` — a create
always stores `is_active = True` and no request modifies or removes a stored
user (the user store either stays unchanged or grows by one active user) —
so the `active_users` statistic always equals `total_users`. -/
theorem active_users_eq_total_users (ops : List Op) :
    (∀ u ∈ (runOps initState ops).users_db, u.is_active = true) ∧
    (get_statistics (runOps initState ops)).active_users =
      (get_statistics (runOps initState ops)).total_users ∧
    (∀ (s : AppState) (op : Op),
      (runOp s op).users_db = s.users_db ∨
      ∃ nu, (runOp s op).users_db = s.users_db ++ [nu] ∧
        nu.is_active = true) := by
  have hact : ∀ u ∈ (runOps initState ops).users_db, u.is_active = true :=
    runOps_users_active ops initState (by simp [initState])
  refine ⟨hact, ?_, runOp_users_db⟩
  have hfa : ((runOps initState ops).users_db.filter
      (fun u => u.is_active)).length = (runOps initState ops).users_db.length := by
    rw [List.filter_eq_self.mpr (by intro u hu; simpa using hact u hu)]
  simp only [get_statistics]
  rw [foldl_count_eq_filter, Nat.zero_add, hfa]

-- ============================
-- Password non-interference (for C10)
-- ============================

/-- C10: the password in the create-user payload influences neither the
response nor the stored state: two create calls on the same state whose
payloads agree on username, email and full name but carry different (valid,
i.e. at least 8 characters long) passwords return the same response and the
same resulting state — and the stored `User` record has no password field at
all. -/
theorem create_user_ignores_password (s : AppState) (u1 u2 : UserCreate)
    (now : Nat) (hn : u1.username = u2.username) (he : u1.email = u2.email)
    (hf : u1.full_name = u2.full_name)
    (_hp1 : 8 ≤ u1.password.length) (_hp2 : 8 ≤ u2.password.length) :
    create_user s u1 now = create_user s u2 now := by
  have hd : ∀ us : List User, findDup us u1 = findDup us u2 := by
    intro us
    induction us with
    | nil => rfl
    | cons e rest ih => simp [findDup, hn, he, ih]
  unfold create_user
  rw [hd s.users_db]
  cases findDup s.users_db u2 with
  | some f => rfl
  | none => simp [hn, he, hf]

theorem create_user_ignores_password_witness :
    create_user initState ⟨"carol", "c@example.com", none, "password1"⟩ 5 =
      create_user initState ⟨"carol", "c@example.com", none, "hunter2xyz"⟩ 5 :=
  create_user_ignores_password initState
    ⟨"carol", "c@example.com", none, "password1"⟩
    ⟨"carol", "c@example.com", none, "hunter2xyz"⟩ 5
    rfl rfl rfl (by decide) (by decide)

end FastApiApp
